import Mathlib

/-!
Verification of the declarative command-line option binder (package `cli`).

The definitions below are a shallow embedding of the Go source: the subset of
the `pflag` flag-set behaviour the binder relies on (typed flag values, the
`Changed` indicator, typed getters that fail on a kind mismatch, `Set`), the
reflective field walk, the naming resolver, the per-kind registration switch of
`New`, the environment-overlay closures, and the write-back functions
(`assignArrays`, `assignSlices`, `assignMaps`, `assignOptInt`, `assignOptBool`,
`assignOptString`) composed by `bind`.  Go panics (the unknown-kind panic in
`New`, the nil-lookup dereference in the optional write-backs) are modelled as
`Except.error` results; in-place record mutation is modelled by threading an
explicit record value, which each write-back step returns together with an
optional error, mirroring the fact that a failing step leaves all earlier
mutations in place.
-/

set_option maxRecDepth 10000

namespace KraftCli

/-! ### Flag values and flag sets (the used subset of spf13/pflag) -/

/-- A parsed flag value.  `strSlice`/`strArray` carry `Option` to keep the Go
distinction between a nil slice (flag registered with nil default and never
set) and a non-nil, possibly empty slice. -/
inductive FlagValue where
  | str (s : String)
  | int (n : Int)
  | bool (b : Bool)
  | strSlice (v : Option (List String))
  | strArray (v : Option (List String))
  deriving DecidableEq

/-- The pflag type name of a value, used in kind-mismatch error messages. -/
def FlagValue.typeName : FlagValue → String
  | .str _ => "string"
  | .int _ => "int"
  | .bool _ => "bool"
  | .strSlice _ => "stringSlice"
  | .strArray _ => "stringArray"

/-- One registered flag: its current value, the `Changed` indicator, and the
scope it was registered on (persistent vs local flag set). -/
structure Flag where
  value : FlagValue
  changed : Bool
  persistent : Bool
  deriving DecidableEq

/-- A flag set: association list from flag name to flag. -/
abbrev FlagSet := List (String × Flag)

def lookupFlag : FlagSet → String → Option Flag
  | [], _ => none
  | (k', a) :: rest, k => if k' = k then some a else lookupFlag rest k

/-- Replace the flag stored under `k` (no-op on an absent name). -/
def setFlagVal : FlagSet → String → Flag → FlagSet
  | [], _, _ => []
  | (k', a') :: rest, k, a =>
    if k' = k then (k, a) :: rest else (k', a') :: setFlagVal rest k a

/-- pflag `GetString`: error when the flag is absent or not of string kind. -/
def getString (fs : FlagSet) (k : String) : Except String String :=
  match lookupFlag fs k with
  | none => .error ("flag accessed but not defined: " ++ k)
  | some a =>
    match a.value with
    | .str s => .ok s
    | v => .error ("trying to get string value of flag of type " ++ v.typeName)

/-- pflag `GetInt`. -/
def getInt (fs : FlagSet) (k : String) : Except String Int :=
  match lookupFlag fs k with
  | none => .error ("flag accessed but not defined: " ++ k)
  | some a =>
    match a.value with
    | .int n => .ok n
    | v => .error ("trying to get int value of flag of type " ++ v.typeName)

/-- pflag `GetBool`. -/
def getBool (fs : FlagSet) (k : String) : Except String Bool :=
  match lookupFlag fs k with
  | none => .error ("flag accessed but not defined: " ++ k)
  | some a =>
    match a.value with
    | .bool b => .ok b
    | v => .error ("trying to get bool value of flag of type " ++ v.typeName)

/-- pflag `GetStringSlice`: only succeeds on a flag registered as stringSlice. -/
def getStringSlice (fs : FlagSet) (k : String) : Except String (Option (List String)) :=
  match lookupFlag fs k with
  | none => .error ("flag accessed but not defined: " ++ k)
  | some a =>
    match a.value with
    | .strSlice v => .ok v
    | v => .error ("trying to get stringSlice value of flag of type " ++ v.typeName)

/-- pflag `GetStringArray`: only succeeds on a flag registered as stringArray. -/
def getStringArray (fs : FlagSet) (k : String) : Except String (Option (List String)) :=
  match lookupFlag fs k with
  | none => .error ("flag accessed but not defined: " ++ k)
  | some a =>
    match a.value with
    | .strArray v => .ok v
    | v => .error ("trying to get stringArray value of flag of type " ++ v.typeName)

/-- pflag `FlagSet.Set` on a string-kind flag: store the new value and mark the
flag as changed.  The source only calls `Set` from the environment-overlay
closure, after `GetString` succeeded, so only the string case is ever
reachable; other kinds are left unchanged here. -/
def setString (fs : FlagSet) (k v : String) : FlagSet :=
  match lookupFlag fs k with
  | some a =>
    match a.value with
    | .str _ => setFlagVal fs k { a with value := .str v, changed := true }
    | _ => fs
  | none => fs

/-- The `Changed` indicator of a (present) flag. -/
def changedOf (fs : FlagSet) (k : String) : Bool :=
  match lookupFlag fs k with
  | some a => a.changed
  | none => false

/-! ### The target record

The Go code mutates the option record in place through `reflect.Value`
locators held in the deferred-bind maps (`arrays`, `slices`, `maps`, `optInt`,
`optBool`, `optString`), each keyed by the registered flag name.  We model the
record as an association list from that registered name to the field value. -/

inductive FieldVal where
  | str (s : String)
  | int (n : Int)
  | bool (b : Bool)
  | strList (l : List String)
  | strMap (m : List (String × String))
  | optInt (v : Option Int)
  | optStr (v : Option String)
  | optBool (v : Option Bool)
  deriving DecidableEq

abbrev Record := List (String × FieldVal)

def recGet : Record → String → Option FieldVal
  | [], _ => none
  | (k', v) :: rest, k => if k' = k then some v else recGet rest k

/-- `reflect.Value.Set`: overwrite the field slot (append when absent, which
never happens for slots produced by registration). -/
def recSet : Record → String → FieldVal → Record
  | [], k, v => [(k, v)]
  | (k', v') :: rest, k, v =>
    if k' = k then (k, v) :: rest else (k', v') :: recSet rest k v

/-! ### String helpers translated from the Go standard library -/

/-- `strings.Split` on a single-character separator, over character lists. -/
def splitChar (sep : Char) : List Char → List (List Char)
  | [] => [[]]
  | c :: rest =>
    match splitChar sep rest with
    | [] => [[c]]
    | h :: t => if c = sep then [] :: h :: t else (c :: h) :: t

/-- `strings.Split(s, sep)` for a one-character separator. -/
def goSplit (s : String) (sep : Char) : List String :=
  (splitChar sep s.data).map String.mk

/-- ASCII lower-casing, as `strings.ToLower` behaves on the ASCII names that
occur in field identifiers. -/
def lowerStr (s : String) : String :=
  String.mk (s.data.map Char.toLower)

/-- The exportedness test of `New`: `strings.ToUpper(name[0:1]) == name[0:1]`.
(Field names are never empty in Go; the empty case is inert.) -/
def isExported (n : String) : Bool :=
  match n.data with
  | [] => true
  | c :: _ => c.toUpper = c

/-- `caseRegexp.ReplaceAllString(s, "$1-$2")` for `([a-z])([A-Z])`: insert a
hyphen between a lower-case letter and a following upper-case letter,
consuming both letters of a match before rescanning, as the regexp engine
does for non-overlapping matches. -/
def kebabList : List Char → List Char
  | [] => []
  | [c] => [c]
  | a :: b :: rest =>
    if a.isLower ∧ b.isUpper then a :: '-' :: b :: kebabList rest
    else a :: kebabList (b :: rest)

def kebabStr (s : String) : String :=
  String.mk (kebabList s.data)

/-- Digit run accumulator for `strconv.Atoi`. -/
def digitsAcc : Nat → List Char → Option Nat
  | acc, [] => some acc
  | acc, c :: rest =>
    if c.isDigit then digitsAcc (acc * 10 + (c.toNat - 48)) rest else none

def digitsVal : List Char → Option Nat
  | [] => none
  | l => digitsAcc 0 l

/-- `strconv.Atoi`: optional sign, decimal digits, 64-bit range check. -/
def goAtoi (s : String) : Option Int :=
  match s.data with
  | '+' :: rest =>
    (digitsVal rest).bind fun n => if n ≤ 2 ^ 63 - 1 then some (Int.ofNat n) else none
  | '-' :: rest =>
    (digitsVal rest).bind fun n => if n ≤ 2 ^ 63 then some (-(n : Int)) else none
  | l =>
    (digitsVal l).bind fun n => if n ≤ 2 ^ 63 - 1 then some (Int.ofNat n) else none

/-- `strconv.ParseBool`. -/
def goParseBool (s : String) : Option Bool :=
  if s = "1" ∨ s = "t" ∨ s = "T" ∨ s = "TRUE" ∨ s = "true" ∨ s = "True" then some true
  else if s = "0" ∨ s = "f" ∨ s = "F" ∨ s = "FALSE" ∨ s = "false" ∨ s = "False" then some false
  else none

/-- Split a character list at the first `'='`: the part before it, and, when a
`'='` exists, the entire remainder. -/
def splitFirstEq : List Char → List Char × Option (List Char)
  | [] => ([], none)
  | c :: rest =>
    if c = '=' then ([], some rest)
    else
      let r := splitFirstEq rest
      (c :: r.1, r.2)

/-- `strings.SplitN(part, "=", 2)` as used by `assignMaps`: a token with no
`'='` yields the whole token as key and `""` as value; otherwise the prefix
before the first `'='` is the key and the entire remainder the value. -/
def parsePair (s : String) : String × String :=
  match splitFirstEq s.data with
  | (_, none) => (s, "")
  | (a, some b) => (String.mk a, String.mk b)

/-! ### Naming resolver and context keys -/

/-- The `name` helper of the source: explicit overrides pass through; otherwise
split on underscore, kebab-case the last segment, move it to the front,
lower-case everything, and default the alias to the second element. -/
def nameFn (nm setName short : String) : String × String :=
  if setName ≠ "" then (setName, short)
  else
    let parts := goSplit nm '_'
    let i := parts.length - 1
    let n1 := lowerStr (kebabStr (parts.getD i ""))
    let result := (n1 :: parts.take i).map lowerStr
    let short2 := if short = "" ∧ result.length > 1 then result.getD 1 "" else short
    (result.getD 0 "", short2)

/-- `contextKey`: the part after the last comma of a registered name. -/
def contextKey (n : String) : String :=
  (goSplit n ',').getLastD ""

/-! ### Record types, tags, and the reflective field walk -/

/-- The struct-tag metadata read off a field (`name`, `short`, `usage`, `env`,
`default`, `split`, `local`). -/
structure GoTag where
  nameTag : String := ""
  short : String := ""
  usage : String := ""
  env : String := ""
  defTag : String := ""
  split : String := ""
  localTag : String := ""
  deriving DecidableEq

/- The reflect kinds the binder distinguishes: the supported leaf kinds, an
unsupported representative (`float`), pointers, and struct types with their
declared field list. -/
mutual
inductive GoType where
  | int
  | int64
  | str
  | bool
  | float
  | slice
  | mapStrStr
  | ptr (elem : GoType)
  | strukt (fs : List GoField)

inductive GoField where
  | mk (name : String) (anonymous : Bool) (tag : GoTag) (type : GoType)
end

def GoField.name : GoField → String
  | .mk n _ _ _ => n

def GoField.anonymous : GoField → Bool
  | .mk _ a _ _ => a

def GoField.tag : GoField → GoTag
  | .mk _ _ t _ => t

def GoField.type : GoField → GoType
  | .mk _ _ _ t => t

def GoType.isStrukt : GoType → Bool
  | .strukt _ => true
  | _ => false

/- The `fields` helper: walk the declared fields in order; an anonymous field
of struct kind contributes its own fields, spliced in place; a non-anonymous
field contributes itself; an anonymous field of any other kind contributes
nothing. -/
mutual
def fieldsOf : GoType → List GoField
  | .strukt fs => fieldsList fs
  | _ => []

def fieldsList : List GoField → List GoField
  | [] => []
  | .mk n anon tg t :: rest =>
    (if anon ∧ t.isStrukt then fieldsOf t
     else if ¬ anon then [.mk n anon tg t] else []) ++ fieldsList rest
end

/-- The fields `New` actually binds: the walked fields whose name survives the
upper-case first-character check. -/
def bindableFields (t : GoType) : List GoField :=
  (fieldsOf t).filter (fun f => isExported f.name)

/-! ### The registration model of `New` -/

/-- `env` tag parsing in `New`: split on comma, and treat a single empty
segment (an absent tag) as no names at all. -/
def normEnv (s : String) : List String :=
  let env := goSplit s ','
  if env.length = 1 ∧ env.getD 0 "" = "" then [] else env

/-- One environment-overlay closure: the environment-variable name, the flag
name it guards, and the captured `default` tag literal. -/
abbrev EnvSpec := String × String × String

/-- A constructed command, as far as the binder is concerned: the registered
flags with their initial values, the six deferred-bind name lists, and the
environment-overlay closures in creation order. -/
structure CmdModel where
  flags : FlagSet := []
  arrays : List String := []
  slices : List String := []
  maps : List String := []
  optInt : List String := []
  optBool : List String := []
  optString : List String := []
  envSpecs : List EnvSpec := []
  deriving DecidableEq

def addFlag (m : CmdModel) (k : String) (a : Flag) : CmdModel :=
  { m with flags := m.flags ++ [(k, a)] }

/-- The per-field body of `New`'s registration loop (everything from the name
resolution down to the appending of the environment closures).  The `default`
switch arm panics on an unsupported non-pointer kind; that panic is modelled
as an `Except.error` carrying the panic message.  Note that the inner switch
on a pointer's element kind has no default arm, so an unsupported pointer
element registers nothing and raises nothing. -/
def processField (recName : String) (f : GoField) (m : CmdModel) : Except String CmdModel :=
  let nm := (nameFn f.name f.tag.nameTag f.tag.short).1
  let env := normEnv f.tag.env
  let defValue := f.tag.defTag
  let defInt : Int := (goAtoi defValue).getD 0
  let pers : Bool := ! (f.tag.localTag == "true")
  let res : Except String CmdModel :=
    match f.type with
    | .int => .ok (addFlag m nm ⟨.int defInt, false, pers⟩)
    | .int64 => .ok (addFlag m nm ⟨.int defInt, false, pers⟩)
    | .str => .ok (addFlag m nm ⟨.str defValue, false, pers⟩)
    | .slice =>
      if f.tag.split = "false" then
        .ok { addFlag m nm ⟨.strArray none, false, pers⟩ with arrays := m.arrays ++ [nm] }
      else
        .ok { addFlag m nm ⟨.strSlice none, false, pers⟩ with slices := m.slices ++ [nm] }
    | .mapStrStr =>
      .ok { addFlag m nm ⟨.strSlice none, false, pers⟩ with maps := m.maps ++ [nm] }
    | .bool => .ok (addFlag m nm ⟨.bool false, false, pers⟩)
    | .ptr e =>
      match e with
      | .int => .ok { addFlag m nm ⟨.int defInt, false, pers⟩ with optInt := m.optInt ++ [nm] }
      | .str => .ok { addFlag m nm ⟨.str defValue, false, pers⟩ with optString := m.optString ++ [nm] }
      | .bool => .ok { addFlag m nm ⟨.bool false, false, pers⟩ with optBool := m.optBool ++ [nm] }
      | _ => .ok m
    | _ => .error ("Unknown kind on field " ++ f.name ++ " on " ++ recName)
  match res with
  | .error e => .error e
  | .ok m' =>
    .ok { m' with envSpecs := m'.envSpecs ++ env.map (fun ev => (ev, nm, defValue)) }

/-- The registration loop of `New`: walk the extracted fields, skip the
non-exported ones, and process the rest in order. -/
def newLoop (recName : String) : List GoField → CmdModel → Except String CmdModel
  | [], m => .ok m
  | f :: rest, m =>
    if isExported f.name then
      match processField recName f m with
      | .error e => .error e
      | .ok m' => newLoop recName rest m'
    else newLoop recName rest m

/-- Command construction (`New`), up to the flag-registration state it builds
before wiring the hook chain. -/
def NewModel (recName : String) (t : GoType) : Except String CmdModel :=
  newLoop recName (fieldsOf t) {}

/-! ### Write-back steps

Each step returns the record as mutated so far together with an optional
error: a failing retrieval aborts the remaining iterations but the record
keeps every assignment already performed, exactly as the in-place Go
mutation does. -/

/-- Go `len` on a possibly nil slice. -/
def goLen : Option (List String) → Nat
  | none => 0
  | some l => l.length

/-- `assignSlices`: for each registered split-sequence name, read the comma
split token slice; when the flag was explicitly changed but holds zero
tokens, substitute the one-element sequence `[""]`; assign only a non-nil
result. -/
def assignSlices (fs : FlagSet) (ks : List String) (rec : Record) : Record × Option String :=
  match ks with
  | [] => (rec, none)
  | k0 :: rest =>
    let k := contextKey k0
    match getStringSlice fs k with
    | .error e => (rec, some e)
    | .ok s =>
      let s := if changedOf fs k ∧ goLen s = 0 then some [""] else s
      match s with
      | none => assignSlices fs rest rec
      | some l => assignSlices fs rest (recSet rec k0 (.strList l))

/-- `assignArrays`: identical to `assignSlices` but reading the unsplit
string-array flag value. -/
def assignArrays (fs : FlagSet) (ks : List String) (rec : Record) : Record × Option String :=
  match ks with
  | [] => (rec, none)
  | k0 :: rest =>
    let k := contextKey k0
    match getStringArray fs k with
    | .error e => (rec, some e)
    | .ok s =>
      let s := if changedOf fs k ∧ goLen s = 0 then some [""] else s
      match s with
      | none => assignArrays fs rest rec
      | some l => assignArrays fs rest (recSet rec k0 (.strList l))

/-- Go map assignment `m[k] = v`: overwrite the existing entry in place or
append a new one. -/
def mapInsert : List (String × String) → String → String → List (String × String)
  | [], k, v => [(k, v)]
  | (k', v') :: rest, k, v =>
    if k' = k then (k, v) :: rest else (k', v') :: mapInsert rest k v

/-- Go map read `m[k]`. -/
def mLookup : List (String × String) → String → Option String
  | [], _ => none
  | (k', v) :: rest, k => if k' = k then some v else mLookup rest k

/-- Build the Go `map[string]string` from tokens, starting from `m`:
`strings.SplitN(part, "=", 2)`, assigning in token order so a later duplicate
key overwrites an earlier one. -/
def buildMapFrom (m : List (String × String)) (ts : List String) : List (String × String) :=
  ts.foldl (fun acc part => mapInsert acc (parsePair part).1 (parsePair part).2) m

/-- The token-to-mapping parse of `assignMaps` (loop body over an initially
empty map). -/
def buildMap (ts : List String) : List (String × String) :=
  buildMapFrom [] ts

/-- `assignMaps`: read the (split) token slice and, when non-nil, assign the
parsed mapping. -/
def assignMaps (fs : FlagSet) (ks : List String) (rec : Record) : Record × Option String :=
  match ks with
  | [] => (rec, none)
  | k0 :: rest =>
    let k := contextKey k0
    match getStringSlice fs k with
    | .error e => (rec, some e)
    | .ok s =>
      match s with
      | none => assignMaps fs rest rec
      | some ts => assignMaps fs rest (recSet rec k0 (.strMap (buildMap ts)))

/-- `assignOptInt`: skip a flag whose changed indicator is false; otherwise
read the int value and assign a fresh reference to it.  A nil `Lookup` result
would make the Go code dereference nil; that is modelled as an error. -/
def assignOptInt (fs : FlagSet) (ks : List String) (rec : Record) : Record × Option String :=
  match ks with
  | [] => (rec, none)
  | k0 :: rest =>
    let k := contextKey k0
    match lookupFlag fs k with
    | none => (rec, some ("flag accessed but not defined: " ++ k))
    | some a =>
      if ¬ a.changed then assignOptInt fs rest rec
      else
        match getInt fs k with
        | .error e => (rec, some e)
        | .ok n => assignOptInt fs rest (recSet rec k0 (.optInt (some n)))

/-- `assignOptBool`: as `assignOptInt`, for booleans. -/
def assignOptBool (fs : FlagSet) (ks : List String) (rec : Record) : Record × Option String :=
  match ks with
  | [] => (rec, none)
  | k0 :: rest =>
    let k := contextKey k0
    match lookupFlag fs k with
    | none => (rec, some ("flag accessed but not defined: " ++ k))
    | some a =>
      if ¬ a.changed then assignOptBool fs rest rec
      else
        match getBool fs k with
        | .error e => (rec, some e)
        | .ok b => assignOptBool fs rest (recSet rec k0 (.optBool (some b)))

/-- `assignOptString`: as `assignOptInt`, for strings. -/
def assignOptString (fs : FlagSet) (ks : List String) (rec : Record) : Record × Option String :=
  match ks with
  | [] => (rec, none)
  | k0 :: rest =>
    let k := contextKey k0
    match lookupFlag fs k with
    | none => (rec, some ("flag accessed but not defined: " ++ k))
    | some a =>
      if ¬ a.changed then assignOptString fs rest rec
      else
        match getString fs k with
        | .error e => (rec, some e)
        | .ok s => assignOptString fs rest (recSet rec k0 (.optStr (some s)))

/-! ### Environment overlay and the hook chain -/

/-- One environment-overlay closure from `New`: read the variable; when it is
non-empty and the flag currently reads as a string equal to `""` or to the
captured default literal, force the flag to the environment value.  Non-string
flags make `GetString` fail and are left alone. -/
def envStep (osEnv : String → String) (fs : FlagSet) (sp : EnvSpec) : FlagSet :=
  let v := osEnv sp.1
  if v ≠ "" then
    match getString fs sp.2.1 with
    | .ok fv => if fv = "" ∨ fv = sp.2.2 then setString fs sp.2.1 v else fs
    | .error _ => fs
  else fs

/-- Run every registered environment closure, in registration order. -/
def runEnvs (envs : List EnvSpec) (osEnv : String → String) (fs : FlagSet) : FlagSet :=
  envs.foldl (envStep osEnv) fs

/-- The closure produced by `bind` for a non-nil `next`: run the environment
closures, then the write-back steps in the fixed order arrays, slices, maps,
optInt, optBool, optString, aborting on the first error, and finally the
wrapped callable. -/
def bindRun (next : Record → Record × Option String)
    (arrays slices maps optI optB optS : List String)
    (envs : List EnvSpec) (osEnv : String → String)
    (fs : FlagSet) (rec : Record) : FlagSet × Record × Option String :=
  let fs := runEnvs envs osEnv fs
  match assignArrays fs arrays rec with
  | (r, some e) => (fs, r, some e)
  | (r, none) =>
    match assignSlices fs slices r with
    | (r, some e) => (fs, r, some e)
    | (r, none) =>
      match assignMaps fs maps r with
      | (r, some e) => (fs, r, some e)
      | (r, none) =>
        match assignOptInt fs optI r with
        | (r, some e) => (fs, r, some e)
        | (r, none) =>
          match assignOptBool fs optB r with
          | (r, some e) => (fs, r, some e)
          | (r, none) =>
            match assignOptString fs optS r with
            | (r, some e) => (fs, r, some e)
            | (r, none) =>
              let p := next r
              (fs, p.1, p.2)

/-- `bind`: a nil callable stays nil; otherwise wrap it in the hook chain. -/
def bind (next : Option (Record → Record × Option String))
    (arrays slices maps optI optB optS : List String) (envs : List EnvSpec) :
    Option ((String → String) → FlagSet → Record → FlagSet × Record × Option String) :=
  match next with
  | none => none
  | some nx => some (fun osEnv fs rec => bindRun nx arrays slices maps optI optB optS envs osEnv fs rec)

/-! ### Helper lemmas -/

theorem lookupFlag_append_of_none {fs : FlagSet} {k : String} (a : Flag)
    (h : lookupFlag fs k = none) : lookupFlag (fs ++ [(k, a)]) k = some a := by
  induction fs with
  | nil => simp [lookupFlag]
  | cons p rest ih =>
    obtain ⟨k', a'⟩ := p
    by_cases hk : k' = k
    · simp [lookupFlag, hk] at h
    · simp [lookupFlag, hk] at h ⊢
      exact ih h

theorem lookupFlag_setFlagVal_self {fs : FlagSet} {k : String} {a' : Flag} (a : Flag)
    (h : lookupFlag fs k = some a') : lookupFlag (setFlagVal fs k a) k = some a := by
  induction fs with
  | nil => simp [lookupFlag] at h
  | cons p rest ih =>
    obtain ⟨k', a''⟩ := p
    by_cases hk : k' = k
    · simp [lookupFlag, setFlagVal, hk]
    · simp [lookupFlag, setFlagVal, hk] at h ⊢
      exact ih h

theorem getString_ok_elim {fs : FlagSet} {k s : String} (h : getString fs k = .ok s) :
    ∃ a, lookupFlag fs k = some a ∧ a.value = .str s := by
  unfold getString at h
  split at h
  · simp at h
  · rename_i a hl
    split at h
    · rename_i s' hv
      simp only [Except.ok.injEq] at h
      exact ⟨a, hl, by rw [hv, h]⟩
    · simp at h

theorem getString_setString {fs : FlagSet} {k s : String} (v : String)
    (h : getString fs k = .ok s) : getString (setString fs k v) k = .ok v := by
  obtain ⟨a, hl, hv⟩ := getString_ok_elim h
  unfold setString
  simp only [hl, hv]
  unfold getString
  rw [lookupFlag_setFlagVal_self _ hl]

theorem recGet_recSet_ne (rec : Record) {k0 k : String} (v : FieldVal) (h : k0 ≠ k) :
    recGet (recSet rec k0 v) k = recGet rec k := by
  induction rec with
  | nil => simp [recGet, recSet, h]
  | cons p rest ih =>
    obtain ⟨k', v'⟩ := p
    by_cases hk : k' = k0
    · subst hk
      simp [recGet, recSet, h]
    · simp [recGet, recSet, hk]
      split <;> simp [recGet, ih]

theorem splitFirstEq_of_not_mem {l : List Char} (h : '=' ∉ l) : splitFirstEq l = (l, none) := by
  induction l with
  | nil => rfl
  | cons c rest ih =>
    have hc : ¬ c = '=' := fun hc => h (hc ▸ List.mem_cons_self c rest)
    have hr : '=' ∉ rest := fun hm => h (List.mem_cons_of_mem c hm)
    simp [splitFirstEq, hc, ih hr]

theorem splitFirstEq_append {a : List Char} (b : List Char) (h : '=' ∉ a) :
    splitFirstEq (a ++ '=' :: b) = (a, some b) := by
  induction a with
  | nil => simp [splitFirstEq]
  | cons c rest ih =>
    have hc : ¬ c = '=' := fun hc => h (hc ▸ List.mem_cons_self c rest)
    have hr : '=' ∉ rest := fun hm => h (List.mem_cons_of_mem c hm)
    simp [splitFirstEq, hc, ih hr]

theorem mLookup_mapInsert_self (m : List (String × String)) (k v : String) :
    mLookup (mapInsert m k v) k = some v := by
  induction m with
  | nil => simp [mapInsert, mLookup]
  | cons p rest ih =>
    obtain ⟨k', v'⟩ := p
    by_cases hk : k' = k
    · simp [mapInsert, mLookup, hk]
    · simp [mapInsert, mLookup, hk, ih]

theorem mLookup_mapInsert_ne (m : List (String × String)) {k k' : String} (v : String)
    (h : k' ≠ k) : mLookup (mapInsert m k' v) k = mLookup m k := by
  induction m with
  | nil => simp [mapInsert, mLookup, h]
  | cons p rest ih =>
    obtain ⟨k'', v''⟩ := p
    by_cases hk : k'' = k'
    · subst hk
      simp [mapInsert, mLookup, h]
    · simp [mapInsert, mLookup, hk]
      split <;> simp [mLookup, ih]

theorem buildMapFrom_append (m : List (String × String)) (ts1 ts2 : List String) :
    buildMapFrom m (ts1 ++ ts2) = buildMapFrom (buildMapFrom m ts1) ts2 := by
  simp [buildMapFrom, List.foldl_append]

theorem mLookup_buildMapFrom_of_no_key {ts : List String} {k : String}
    (m : List (String × String)) (h : ∀ u ∈ ts, (parsePair u).1 ≠ k) :
    mLookup (buildMapFrom m ts) k = mLookup m k := by
  induction ts generalizing m with
  | nil => rfl
  | cons t rest ih =>
    have ht : (parsePair t).1 ≠ k := h t (List.mem_cons_self t rest)
    have hr : ∀ u ∈ rest, (parsePair u).1 ≠ k := fun u hu => h u (List.mem_cons_of_mem t hu)
    show mLookup (buildMapFrom (mapInsert m (parsePair t).1 (parsePair t).2) rest) k = mLookup m k
    rw [ih _ hr, mLookup_mapInsert_ne _ _ ht]

theorem assignMaps_fst_untouched (fs : FlagSet) (ks : List String) (rec : Record) {k : String}
    (h : k ∉ ks) : recGet (assignMaps fs ks rec).1 k = recGet rec k := by
  induction ks generalizing rec with
  | nil => rfl
  | cons k0 rest ih =>
    have hk0 : k0 ≠ k := fun he => h (he ▸ List.mem_cons_self k0 rest)
    have hr : k ∉ rest := fun hm => h (List.mem_cons_of_mem k0 hm)
    cases hgs : getStringSlice fs (contextKey k0) with
    | error e => simp [assignMaps, hgs]
    | ok s =>
      cases s with
      | none => simpa [assignMaps, hgs] using ih rec hr
      | some ts =>
        simp only [assignMaps, hgs]
        rw [ih _ hr, recGet_recSet_ne _ _ hk0]

theorem assignArrays_fst_untouched (fs : FlagSet) (ks : List String) (rec : Record) {k : String}
    (h : k ∉ ks) : recGet (assignArrays fs ks rec).1 k = recGet rec k := by
  induction ks generalizing rec with
  | nil => rfl
  | cons k0 rest ih =>
    have hk0 : k0 ≠ k := fun he => h (he ▸ List.mem_cons_self k0 rest)
    have hr : k ∉ rest := fun hm => h (List.mem_cons_of_mem k0 hm)
    cases hgs : getStringArray fs (contextKey k0) with
    | error e => simp [assignArrays, hgs]
    | ok s =>
      cases hif : (if changedOf fs (contextKey k0) ∧ goLen s = 0 then some [""] else s) with
      | none =>
        simp only [assignArrays, hgs, hif]
        exact ih rec hr
      | some l =>
        simp only [assignArrays, hgs, hif]
        rw [ih _ hr, recGet_recSet_ne _ _ hk0]

theorem assignSlices_fst_untouched (fs : FlagSet) (ks : List String) (rec : Record) {k : String}
    (h : k ∉ ks) : recGet (assignSlices fs ks rec).1 k = recGet rec k := by
  induction ks generalizing rec with
  | nil => rfl
  | cons k0 rest ih =>
    have hk0 : k0 ≠ k := fun he => h (he ▸ List.mem_cons_self k0 rest)
    have hr : k ∉ rest := fun hm => h (List.mem_cons_of_mem k0 hm)
    cases hgs : getStringSlice fs (contextKey k0) with
    | error e => simp [assignSlices, hgs]
    | ok s =>
      cases hif : (if changedOf fs (contextKey k0) ∧ goLen s = 0 then some [""] else s) with
      | none =>
        simp only [assignSlices, hgs, hif]
        exact ih rec hr
      | some l =>
        simp only [assignSlices, hgs, hif]
        rw [ih _ hr, recGet_recSet_ne _ _ hk0]

theorem assignOptInt_fst_untouched (fs : FlagSet) (ks : List String) (rec : Record) {k : String}
    (h : k ∉ ks) : recGet (assignOptInt fs ks rec).1 k = recGet rec k := by
  induction ks generalizing rec with
  | nil => rfl
  | cons k0 rest ih =>
    have hk0 : k0 ≠ k := fun he => h (he ▸ List.mem_cons_self k0 rest)
    have hr : k ∉ rest := fun hm => h (List.mem_cons_of_mem k0 hm)
    cases hl : lookupFlag fs (contextKey k0) with
    | none => simp [assignOptInt, hl]
    | some a =>
      cases hch : a.changed with
      | false =>
        have heq : assignOptInt fs (k0 :: rest) rec = assignOptInt fs rest rec := by
          simp [assignOptInt, hl, hch]
        rw [heq]
        exact ih rec hr
      | true =>
        cases hgs : getInt fs (contextKey k0) with
        | error e => simp [assignOptInt, hl, hch, hgs]
        | ok n =>
          have heq : assignOptInt fs (k0 :: rest) rec =
              assignOptInt fs rest (recSet rec k0 (.optInt (some n))) := by
            simp [assignOptInt, hl, hch, hgs]
          rw [heq, ih _ hr, recGet_recSet_ne _ _ hk0]

theorem assignOptBool_fst_untouched (fs : FlagSet) (ks : List String) (rec : Record) {k : String}
    (h : k ∉ ks) : recGet (assignOptBool fs ks rec).1 k = recGet rec k := by
  induction ks generalizing rec with
  | nil => rfl
  | cons k0 rest ih =>
    have hk0 : k0 ≠ k := fun he => h (he ▸ List.mem_cons_self k0 rest)
    have hr : k ∉ rest := fun hm => h (List.mem_cons_of_mem k0 hm)
    cases hl : lookupFlag fs (contextKey k0) with
    | none => simp [assignOptBool, hl]
    | some a =>
      cases hch : a.changed with
      | false =>
        have heq : assignOptBool fs (k0 :: rest) rec = assignOptBool fs rest rec := by
          simp [assignOptBool, hl, hch]
        rw [heq]
        exact ih rec hr
      | true =>
        cases hgs : getBool fs (contextKey k0) with
        | error e => simp [assignOptBool, hl, hch, hgs]
        | ok b =>
          have heq : assignOptBool fs (k0 :: rest) rec =
              assignOptBool fs rest (recSet rec k0 (.optBool (some b))) := by
            simp [assignOptBool, hl, hch, hgs]
          rw [heq, ih _ hr, recGet_recSet_ne _ _ hk0]

theorem assignOptString_fst_untouched (fs : FlagSet) (ks : List String) (rec : Record)
    {k : String} (h : k ∉ ks) : recGet (assignOptString fs ks rec).1 k = recGet rec k := by
  induction ks generalizing rec with
  | nil => rfl
  | cons k0 rest ih =>
    have hk0 : k0 ≠ k := fun he => h (he ▸ List.mem_cons_self k0 rest)
    have hr : k ∉ rest := fun hm => h (List.mem_cons_of_mem k0 hm)
    cases hl : lookupFlag fs (contextKey k0) with
    | none => simp [assignOptString, hl]
    | some a =>
      cases hch : a.changed with
      | false =>
        have heq : assignOptString fs (k0 :: rest) rec = assignOptString fs rest rec := by
          simp [assignOptString, hl, hch]
        rw [heq]
        exact ih rec hr
      | true =>
        cases hgs : getString fs (contextKey k0) with
        | error e => simp [assignOptString, hl, hch, hgs]
        | ok s =>
          have heq : assignOptString fs (k0 :: rest) rec =
              assignOptString fs rest (recSet rec k0 (.optStr (some s))) := by
            simp [assignOptString, hl, hch, hgs]
          rw [heq, ih _ hr, recGet_recSet_ne _ _ hk0]

theorem envStep_skip {osEnv : String → String} {fs : FlagSet} {k defV w : String} (e : String)
    (hgs : getString fs k = .ok w) (hw1 : w ≠ "") (hw2 : w ≠ defV) :
    envStep osEnv fs (e, k, defV) = fs := by
  unfold envStep
  simp only [hgs]
  simp [hw1, hw2]

theorem envStep_fires {osEnv : String → String} {fs : FlagSet} {k defV s v : String} (e : String)
    (hgs : getString fs k = .ok s) (hcond : s = "" ∨ s = defV) (hos : osEnv e = v)
    (hvne : v ≠ "") : envStep osEnv fs (e, k, defV) = setString fs k v := by
  unfold envStep
  simp only [hos, hgs]
  rw [if_pos hvne, if_pos hcond]

theorem fieldsList_append (l1 l2 : List GoField) :
    fieldsList (l1 ++ l2) = fieldsList l1 ++ fieldsList l2 := by
  induction l1 with
  | nil => simp [fieldsList]
  | cons f rest ih =>
    cases f
    simp [fieldsList, ih]

theorem processField_bad_float (recName n : String) (anon : Bool) (tg : GoTag) (m : CmdModel) :
    processField recName (.mk n anon tg .float) m =
      .error ("Unknown kind on field " ++ n ++ " on " ++ recName) := rfl

theorem processField_bad_strukt (recName n : String) (anon : Bool) (tg : GoTag)
    (l : List GoField) (m : CmdModel) :
    processField recName (.mk n anon tg (.strukt l)) m =
      .error ("Unknown kind on field " ++ n ++ " on " ++ recName) := rfl

theorem newLoop_error_of_mem (recName : String) {l : List GoField} {f : GoField}
    (hf : f ∈ l) (hex : isExported f.name = true)
    (hbad : f.type = .float ∨ ∃ fsl, f.type = .strukt fsl) :
    ∀ m, ∃ e, newLoop recName l m = .error e := by
  induction l with
  | nil => exact absurd hf (List.not_mem_nil f)
  | cons g rest ih =>
    intro m
    have hbadproc : ∀ m', ∃ e, processField recName f m' = .error e := by
      intro m'
      obtain ⟨n, anon, tg, ty⟩ := f
      rcases hbad with hb | ⟨fsl, hb⟩ <;> simp only [GoField.type] at hb <;> subst hb
      · exact ⟨_, processField_bad_float recName n anon tg m'⟩
      · exact ⟨_, processField_bad_strukt recName n anon tg fsl m'⟩
    rcases List.mem_cons.mp hf with he | hm
    · subst he
      obtain ⟨e, hpe⟩ := hbadproc m
      exact ⟨e, by simp [newLoop, hex, hpe]⟩
    · by_cases hexg : isExported g.name
      · cases hpg : processField recName g m with
        | error e => exact ⟨e, by simp [newLoop, hexg, hpg]⟩
        | ok m' =>
          obtain ⟨e, hrest⟩ := ih hm m'
          exact ⟨e, by simp [newLoop, hexg, hpg, hrest]⟩
      · obtain ⟨e, hrest⟩ := ih hm m
        exact ⟨e, by simp [newLoop, hexg, hrest]⟩

/-! ### Claim theorems -/

/-- Claim C5, counterexample: the naming resolver applied to the declared field
name `Tag_Name` with no overrides does not return the flag name `tag-name`
with an empty alias. -/
theorem claim_C5_counterexample : nameFn "Tag_Name" "" "" ≠ ("tag-name", "") := by decide

/-- Claim C5 (amended): the naming resolver applied to the declared field name
`Tag_Name` with no explicit name or short override returns the flag name
`name` with the alias `tag` (the last underscore segment, kebab-cased and
lower-cased, moves to the front and becomes the flag name, and the first of
the remaining segments becomes the default alias); the camel-case declared
name `TagName`, having a single underscore segment, is the one that resolves
to `tag-name` with an empty alias. -/
theorem claim_C5 :
    nameFn "Tag_Name" "" "" = ("name", "tag") ∧ nameFn "TagName" "" "" = ("tag-name", "") :=
  ⟨rfl, rfl⟩

/-- Claim C6, counterexample: the field walk is not governed by exportedness
alone — an anonymous (embedded) field of non-record kind whose name begins
with an upper-case letter is dropped entirely, so it is absent from the
bindable set even though its name is exported. -/
theorem claim_C6_counterexample :
    isExported "MyInt" = true ∧
    bindableFields (GoType.strukt [GoField.mk "MyInt" true {} GoType.int]) = [] :=
  ⟨rfl, rfl⟩

/-- Claim C6 (amended): the field walk returns fields depth-first with an
embedded record's fields spliced into the parent's list at the point of
embedding in declaration order (splitting and splicing commute with list
append, an anonymous record field contributes exactly its own walked fields,
and an anonymous field of non-record kind contributes nothing); among the
walked fields, membership in the bindable set is exactly the exportedness
check on the field name. -/
theorem claim_C6 :
    (∀ l1 l2 : List GoField, fieldsList (l1 ++ l2) = fieldsList l1 ++ fieldsList l2)
    ∧ (∀ (n : String) (tg : GoTag) (inner : List GoField),
        fieldsList [GoField.mk n true tg (.strukt inner)] = fieldsList inner)
    ∧ (∀ (t : GoType) (f : GoField),
        f ∈ bindableFields t ↔ f ∈ fieldsOf t ∧ isExported f.name = true)
    ∧ (∀ (l : List GoField) (n : String) (tg : GoTag) (ty : GoType),
        ty.isStrukt = false → fieldsList (GoField.mk n true tg ty :: l) = fieldsList l) := by
  refine ⟨fieldsList_append, ?_, ?_, ?_⟩
  · intro n tg inner
    simp [fieldsList, fieldsOf, GoType.isStrukt]
  · intro t f
    simp [bindableFields, List.mem_filter]
  · intro l n tg ty hty
    simp [fieldsList, hty]

/-- Claim C6 witness: concrete instances of the splice equations and the
membership characterization. -/
theorem claim_C6_witness :
    fieldsList ([GoField.mk "A" false {} .str] ++ [GoField.mk "B" false {} .int]) =
      fieldsList [GoField.mk "A" false {} .str] ++ fieldsList [GoField.mk "B" false {} .int]
    ∧ fieldsList [GoField.mk "Sub" true {} (.strukt [GoField.mk "C" false {} .bool])] =
      fieldsList [GoField.mk "C" false {} .bool]
    ∧ (GoField.mk "A" false {} GoType.str ∈
        bindableFields (GoType.strukt [GoField.mk "A" false {} .str]) ↔
        GoField.mk "A" false {} GoType.str ∈ fieldsOf (GoType.strukt [GoField.mk "A" false {} .str])
          ∧ isExported (GoField.mk "A" false {} GoType.str).name = true)
    ∧ fieldsList [GoField.mk "X" true {} .int] = fieldsList [] :=
  ⟨claim_C6.1 _ _, claim_C6.2.1 "Sub" {} _, claim_C6.2.2.1 _ _, claim_C6.2.2.2 [] "X" {} .int rfl⟩

/-- Claim C7, counterexample: an optional-boolean field declared with the
default literal `true` registers a boolean flag whose default value is
`false`, not the kind-appropriate parse of the declared literal (which is
`true`): the registration call for boolean flags hard-codes `false` and
ignores the `default` tag. -/
theorem claim_C7_counterexample :
    processField "Opts" (GoField.mk "Force" false { defTag := "true" } (.ptr .bool)) {} =
      .ok { flags := [("force", ⟨.bool false, false, true⟩)], optBool := ["force"] }
    ∧ goParseBool "true" = some true
    ∧ FlagValue.bool false ≠ FlagValue.bool true :=
  ⟨rfl, rfl, by decide⟩

/-- Claim C7 (amended): optional-integer fields register an int flag whose
default is the declared default literal parsed by Atoi with silent fallback
to zero, and optional-string fields register a string flag whose default is
the declared literal verbatim; optional-boolean fields register a boolean
flag whose default is always `false`, the declared default literal being
ignored.  In all three cases the flag starts unchanged and its name is
appended to the corresponding deferred-bind list. -/
theorem claim_C7 :
    (∀ (recName n : String) (tg : GoTag) (m : CmdModel) (nm : String),
      nm = (nameFn n tg.nameTag tg.short).1 → lookupFlag m.flags nm = none →
      ∃ m', processField recName (GoField.mk n false tg (.ptr .int)) m = .ok m'
        ∧ lookupFlag m'.flags nm =
            some ⟨.int ((goAtoi tg.defTag).getD 0), false, ! (tg.localTag == "true")⟩
        ∧ m'.optInt = m.optInt ++ [nm])
    ∧ (∀ (recName n : String) (tg : GoTag) (m : CmdModel) (nm : String),
      nm = (nameFn n tg.nameTag tg.short).1 → lookupFlag m.flags nm = none →
      ∃ m', processField recName (GoField.mk n false tg (.ptr .str)) m = .ok m'
        ∧ lookupFlag m'.flags nm = some ⟨.str tg.defTag, false, ! (tg.localTag == "true")⟩
        ∧ m'.optString = m.optString ++ [nm])
    ∧ (∀ (recName n : String) (tg : GoTag) (m : CmdModel) (nm : String),
      nm = (nameFn n tg.nameTag tg.short).1 → lookupFlag m.flags nm = none →
      ∃ m', processField recName (GoField.mk n false tg (.ptr .bool)) m = .ok m'
        ∧ lookupFlag m'.flags nm = some ⟨.bool false, false, ! (tg.localTag == "true")⟩
        ∧ m'.optBool = m.optBool ++ [nm]) := by
  refine ⟨?_, ?_, ?_⟩ <;>
    · intro recName n tg m nm hnm hnone
      subst hnm
      refine ⟨_, rfl, ?_, rfl⟩
      exact lookupFlag_append_of_none _ hnone

/-- Claim C7 witness: the three optional kinds registered on an empty command
model with concrete tags. -/
theorem claim_C7_witness :
    (∃ m', processField "Opts" (GoField.mk "Retries" false { defTag := "5" } (.ptr .int)) {} =
        .ok m'
      ∧ lookupFlag m'.flags "retries" = some ⟨.int 5, false, true⟩
      ∧ m'.optInt = ["retries"])
    ∧ (∃ m', processField "Opts" (GoField.mk "Label" false { defTag := "dev" } (.ptr .str)) {} =
        .ok m'
      ∧ lookupFlag m'.flags "label" = some ⟨.str "dev", false, true⟩
      ∧ m'.optString = ["label"])
    ∧ (∃ m', processField "Opts" (GoField.mk "Force" false { defTag := "true" } (.ptr .bool)) {} =
        .ok m'
      ∧ lookupFlag m'.flags "force" = some ⟨.bool false, false, true⟩
      ∧ m'.optBool = ["force"]) :=
  ⟨claim_C7.1 "Opts" "Retries" { defTag := "5" } {} "retries" rfl rfl,
   claim_C7.2.1 "Opts" "Label" { defTag := "dev" } {} "label" rfl rfl,
   claim_C7.2.2 "Opts" "Force" { defTag := "true" } {} "force" rfl rfl⟩

/-- Claim C8, counterexample: a field of pointer kind whose element kind is
outside the supported set (an optional float) does not make command
construction fail — the registration switch's pointer arm silently skips it,
registering nothing and raising nothing. -/
theorem claim_C8_counterexample :
    NewModel "Opts" (GoType.strukt [GoField.mk "Threshold" false {} (.ptr .float)]) =
      .ok {} := rfl

/-- Claim C8 (amended): a bindable field of unsupported non-pointer kind (for
example a float, or a non-anonymous record field) makes command construction
fail at definition time, before any input is parsed — `NewModel` returns an
error; a field of pointer kind with an unsupported element kind, however, is
silently skipped: it registers no flag and causes no failure. -/
theorem claim_C8 :
    (∀ (recName : String) (t : GoType),
      (∃ f, f ∈ bindableFields t ∧ (f.type = .float ∨ ∃ l, f.type = .strukt l)) →
      ∃ e, NewModel recName t = .error e)
    ∧ (∀ (recName n : String) (tg : GoTag) (m : CmdModel), tg.env = "" →
      processField recName (GoField.mk n false tg (.ptr .float)) m = .ok m) := by
  constructor
  · intro recName t ⟨f, hmem, hbad⟩
    have hx := (List.mem_filter.mp hmem)
    exact newLoop_error_of_mem recName hx.1 hx.2 hbad {}
  · intro recName n tg m henv
    simp [processField, normEnv, henv, goSplit, splitChar, GoField.name, GoField.tag,
      GoField.type, addFlag]

/-- Claim C8 witness: a record with an exported float field fails
construction, while a record processing an optional-float field succeeds and
leaves the command model untouched. -/
theorem claim_C8_witness :
    (∃ e, NewModel "Opts" (GoType.strukt [GoField.mk "Level" false {} .float]) = .error e)
    ∧ processField "Opts" (GoField.mk "Threshold" false {} (.ptr .float)) ({} : CmdModel) =
        .ok {} :=
  ⟨claim_C8.1 "Opts" _
      ⟨GoField.mk "Level" false {} .float,
        by
          show GoField.mk "Level" false {} GoType.float ∈
            [GoField.mk "Level" false {} GoType.float]
          exact List.mem_singleton_self _,
        Or.inl rfl⟩,
    claim_C8.2 "Opts" "Threshold" {} {} rfl⟩

/-- Claim C1: for both sequence kinds, a flag whose changed indicator is true
but whose parsed token sequence has zero elements writes the one-element
sequence containing the empty string into the target field, while a flag that
was never supplied (unchanged, still holding the nil registration default)
leaves the target field at its prior state. -/
theorem claim_C1 :
    (∀ (fs : FlagSet) (rec : Record) (k0 : String) (a : Flag) (s : Option (List String)),
      lookupFlag fs (contextKey k0) = some a → a.value = .strSlice s →
      a.changed = true → goLen s = 0 →
      assignSlices fs [k0] rec = (recSet rec k0 (.strList [""]), none))
    ∧ (∀ (fs : FlagSet) (rec : Record) (k0 : String) (a : Flag),
      lookupFlag fs (contextKey k0) = some a → a.value = .strSlice none →
      a.changed = false →
      assignSlices fs [k0] rec = (rec, none))
    ∧ (∀ (fs : FlagSet) (rec : Record) (k0 : String) (a : Flag) (s : Option (List String)),
      lookupFlag fs (contextKey k0) = some a → a.value = .strArray s →
      a.changed = true → goLen s = 0 →
      assignArrays fs [k0] rec = (recSet rec k0 (.strList [""]), none))
    ∧ (∀ (fs : FlagSet) (rec : Record) (k0 : String) (a : Flag),
      lookupFlag fs (contextKey k0) = some a → a.value = .strArray none →
      a.changed = false →
      assignArrays fs [k0] rec = (rec, none)) := by
  refine ⟨?_, ?_, ?_, ?_⟩
  · intro fs rec k0 a s hl hv hc hlen
    have hch : changedOf fs (contextKey k0) = true := by simp [changedOf, hl, hc]
    simp [assignSlices, getStringSlice, hl, hv, hch, hlen]
  · intro fs rec k0 a hl hv hc
    have hch : changedOf fs (contextKey k0) = false := by simp [changedOf, hl, hc]
    simp [assignSlices, getStringSlice, hl, hv, hch]
  · intro fs rec k0 a s hl hv hc hlen
    have hch : changedOf fs (contextKey k0) = true := by simp [changedOf, hl, hc]
    simp [assignArrays, getStringArray, hl, hv, hch, hlen]
  · intro fs rec k0 a hl hv hc
    have hch : changedOf fs (contextKey k0) = false := by simp [changedOf, hl, hc]
    simp [assignArrays, getStringArray, hl, hv, hch]

/-- Claim C1 witness: a split-sequence flag explicitly set to an empty value
writes `[""]`, an omitted one keeps the prior field; likewise for the unsplit
kind. -/
theorem claim_C1_witness :
    assignSlices [("sq", ⟨.strSlice (some []), true, true⟩)] ["sq"] [("sq", .strList ["old"])] =
      ([("sq", .strList [""])], none)
    ∧ assignSlices [("sq", ⟨.strSlice none, false, true⟩)] ["sq"] [("sq", .strList ["old"])] =
      ([("sq", .strList ["old"])], none)
    ∧ assignArrays [("aq", ⟨.strArray (some []), true, true⟩)] ["aq"] [] =
      ([("aq", .strList [""])], none)
    ∧ assignArrays [("aq", ⟨.strArray none, false, true⟩)] ["aq"] [] = ([], none) :=
  ⟨claim_C1.1 _ _ "sq" _ (some []) rfl rfl rfl rfl,
   claim_C1.2.1 _ _ "sq" _ rfl rfl rfl,
   claim_C1.2.2.1 _ _ "aq" _ (some []) rfl rfl rfl rfl,
   claim_C1.2.2.2 _ _ "aq" _ rfl rfl rfl⟩

/-- Claim C2: for each optional kind, the write-back step assigns a fresh
reference (`some` of the parsed value) into the target optional field exactly
when the flag's changed indicator is true; an unchanged flag leaves the
target field at its prior state. -/
theorem claim_C2 :
    (∀ (fs : FlagSet) (rec : Record) (k0 : String) (a : Flag) (n : Int),
      lookupFlag fs (contextKey k0) = some a → a.changed = true → a.value = .int n →
      assignOptInt fs [k0] rec = (recSet rec k0 (.optInt (some n)), none))
    ∧ (∀ (fs : FlagSet) (rec : Record) (k0 : String) (a : Flag),
      lookupFlag fs (contextKey k0) = some a → a.changed = false →
      assignOptInt fs [k0] rec = (rec, none))
    ∧ (∀ (fs : FlagSet) (rec : Record) (k0 : String) (a : Flag) (b : Bool),
      lookupFlag fs (contextKey k0) = some a → a.changed = true → a.value = .bool b →
      assignOptBool fs [k0] rec = (recSet rec k0 (.optBool (some b)), none))
    ∧ (∀ (fs : FlagSet) (rec : Record) (k0 : String) (a : Flag),
      lookupFlag fs (contextKey k0) = some a → a.changed = false →
      assignOptBool fs [k0] rec = (rec, none))
    ∧ (∀ (fs : FlagSet) (rec : Record) (k0 : String) (a : Flag) (s : String),
      lookupFlag fs (contextKey k0) = some a → a.changed = true → a.value = .str s →
      assignOptString fs [k0] rec = (recSet rec k0 (.optStr (some s)), none))
    ∧ (∀ (fs : FlagSet) (rec : Record) (k0 : String) (a : Flag),
      lookupFlag fs (contextKey k0) = some a → a.changed = false →
      assignOptString fs [k0] rec = (rec, none)) := by
  refine ⟨?_, ?_, ?_, ?_, ?_, ?_⟩
  · intro fs rec k0 a n hl hc hv
    simp [assignOptInt, getInt, hl, hc, hv]
  · intro fs rec k0 a hl hc
    simp [assignOptInt, hl, hc]
  · intro fs rec k0 a b hl hc hv
    simp [assignOptBool, getBool, hl, hc, hv]
  · intro fs rec k0 a hl hc
    simp [assignOptBool, hl, hc]
  · intro fs rec k0 a s hl hc hv
    simp [assignOptString, getString, hl, hc, hv]
  · intro fs rec k0 a hl hc
    simp [assignOptString, hl, hc]

/-- Claim C2 witness: each optional kind, once with the flag explicitly
changed (even to the registered default value) and once omitted. -/
theorem claim_C2_witness :
    assignOptInt [("oi", ⟨.int 0, true, true⟩)] ["oi"] [] = ([("oi", .optInt (some 0))], none)
    ∧ assignOptInt [("oi", ⟨.int 0, false, true⟩)] ["oi"] [("oi", .optInt none)] =
      ([("oi", .optInt none)], none)
    ∧ assignOptBool [("ob", ⟨.bool false, true, true⟩)] ["ob"] [] =
      ([("ob", .optBool (some false))], none)
    ∧ assignOptBool [("ob", ⟨.bool false, false, true⟩)] ["ob"] [("ob", .optBool none)] =
      ([("ob", .optBool none)], none)
    ∧ assignOptString [("os", ⟨.str "dflt", true, true⟩)] ["os"] [] =
      ([("os", .optStr (some "dflt"))], none)
    ∧ assignOptString [("os", ⟨.str "dflt", false, true⟩)] ["os"] [("os", .optStr none)] =
      ([("os", .optStr none)], none) :=
  ⟨claim_C2.1 _ _ "oi" _ 0 rfl rfl rfl,
   claim_C2.2.1 _ _ "oi" _ rfl rfl,
   claim_C2.2.2.1 _ _ "ob" _ false rfl rfl rfl,
   claim_C2.2.2.2.1 _ _ "ob" _ rfl rfl,
   claim_C2.2.2.2.2.1 _ _ "os" _ "dflt" rfl rfl rfl,
   claim_C2.2.2.2.2.2 _ _ "os" _ rfl rfl⟩

/-- Claim C3: the mapping write-back assigns, for a non-nil token slice, the
map built by splitting each token once on the first `'='` (a token without
`'='` maps its whole text to the empty string; a token with `'='` maps the
prefix before the first `'='` to the entire remainder, later `'='` characters
kept verbatim), with the last occurrence of a duplicate key winning; the two
concrete examples of the claim are included. -/
theorem claim_C3 :
    (∀ (fs : FlagSet) (rec : Record) (k0 : String) (a : Flag) (ts : List String),
      lookupFlag fs (contextKey k0) = some a → a.value = .strSlice (some ts) →
      assignMaps fs [k0] rec = (recSet rec k0 (.strMap (buildMap ts)), none))
    ∧ (∀ s t : String, (∀ c ∈ s.data, c ≠ '=') → parsePair (s ++ "=" ++ t) = (s, t))
    ∧ (∀ t : String, (∀ c ∈ t.data, c ≠ '=') → parsePair t = (t, ""))
    ∧ (∀ (m : List (String × String)) (ts1 : List String) (t : String) (ts2 : List String)
        (k : String), (parsePair t).1 = k → (∀ u ∈ ts2, (parsePair u).1 ≠ k) →
        mLookup (buildMapFrom m (ts1 ++ t :: ts2)) k = some (parsePair t).2)
    ∧ mLookup (buildMap ["a=1", "b"]) "a" = some "1"
    ∧ mLookup (buildMap ["a=1", "b"]) "b" = some ""
    ∧ mLookup (buildMap ["a=1", "a=2"]) "a" = some "2" := by
  refine ⟨?_, ?_, ?_, ?_, rfl, rfl, rfl⟩
  · intro fs rec k0 a ts hl hv
    simp [assignMaps, getStringSlice, hl, hv]
  · intro s t h
    have hne : '=' ∉ s.data := fun hm => h '=' hm rfl
    have hd : (s ++ "=" ++ t).data = s.data ++ '=' :: t.data := by
      simp [String.data_append]
    unfold parsePair
    rw [hd, splitFirstEq_append _ hne]
  · intro t h
    have hne : '=' ∉ t.data := fun hm => h '=' hm rfl
    unfold parsePair
    rw [splitFirstEq_of_not_mem hne]
  · intro m ts1 t ts2 k hk hno
    rw [buildMapFrom_append]
    show mLookup (buildMapFrom (mapInsert (buildMapFrom m ts1) (parsePair t).1 (parsePair t).2) ts2) k
      = some (parsePair t).2
    rw [mLookup_buildMapFrom_of_no_key _ hno, hk, mLookup_mapInsert_self]

/-- Claim C3 witness: concrete instances of the write-back equation, the
split-once parse (including a remainder that itself contains `'='`), the
no-equals parse, and the duplicate-key resolution. -/
theorem claim_C3_witness :
    assignMaps [("mp", ⟨.strSlice (some ["a=1", "b"]), true, true⟩)] ["mp"] [] =
      ([("mp", .strMap [("a", "1"), ("b", "")])], none)
    ∧ parsePair ("x" ++ "=" ++ "1=2") = ("x", "1=2")
    ∧ parsePair "b" = ("b", "")
    ∧ mLookup (buildMapFrom [] (["a=1"] ++ "a=2" :: [])) "a" = some "2" :=
  ⟨claim_C3.1 _ _ "mp" _ ["a=1", "b"] rfl rfl,
   claim_C3.2.1 "x" "1=2" (by decide),
   claim_C3.2.2.1 "b" (by decide),
   claim_C3.2.2.2.1 [] ["a=1"] "a=2" [] "a" rfl (by simp)⟩

/-- Claim C4: on every invocation each declared environment-variable name is
consulted in order (the overlay is a fold over all of them, and a later name
still fires after an earlier one has already forced the flag); a single
declared name with a non-empty environment value forces a flag whose current
value is the empty string or the captured default literal; a flag explicitly
set to a value distinct from both is never overwritten, whatever the declared
names.  The string field itself is direct-bound to the flag, so the forced
flag value is the resolved field value.  Registration appends one overlay
closure per declared name, each capturing the same flag name and default
literal. -/
theorem claim_C4 :
    (∀ (recName n : String) (tg : GoTag) (m m' : CmdModel),
      processField recName (GoField.mk n false tg .str) m = .ok m' →
      m'.envSpecs = m.envSpecs ++
        (normEnv tg.env).map (fun ev => (ev, (nameFn n tg.nameTag tg.short).1, tg.defTag)))
    ∧ (∀ (osEnv : String → String) (fs : FlagSet) (e k defV s v : String),
      getString fs k = .ok s → (s = "" ∨ s = defV) → osEnv e = v → v ≠ "" →
      getString (runEnvs [(e, k, defV)] osEnv fs) k = .ok v)
    ∧ (∀ (osEnv : String → String) (fs : FlagSet) (k defV : String) (specs : List EnvSpec)
        (w : String), (∀ sp ∈ specs, sp.2.1 = k ∧ sp.2.2 = defV) →
      getString fs k = .ok w → w ≠ "" → w ≠ defV →
      getString (runEnvs specs osEnv fs) k = .ok w)
    ∧ (∀ (osEnv : String → String) (fs : FlagSet) (e1 e2 k defV s w : String),
      getString fs k = .ok s → (s = "" ∨ s = defV) →
      osEnv e1 = defV → defV ≠ "" → osEnv e2 = w → w ≠ "" →
      getString (runEnvs [(e1, k, defV), (e2, k, defV)] osEnv fs) k = .ok w) := by
  refine ⟨?_, ?_, ?_, ?_⟩
  · intro recName n tg m m' h
    simp only [processField, GoField.name, GoField.tag, GoField.type, Except.ok.injEq] at h
    subst h
    rfl
  · intro osEnv fs e k defV s v hgs hcond hos hvne
    show getString (envStep osEnv fs (e, k, defV)) k = .ok v
    rw [envStep_fires e hgs hcond hos hvne]
    exact getString_setString v hgs
  · intro osEnv fs k defV specs w hall hgs hw1 hw2
    induction specs with
    | nil => exact hgs
    | cons sp rest ih =>
      obtain ⟨e', k', d'⟩ := sp
      have h1 := hall _ (List.mem_cons_self _ rest)
      have hk' : k' = k := h1.1
      have hd' : d' = defV := h1.2
      show getString (runEnvs rest osEnv (envStep osEnv fs (e', k', d'))) k = .ok w
      rw [hk', hd', envStep_skip e' hgs hw1 hw2]
      exact ih (fun sp hsp => hall sp (List.mem_cons_of_mem _ hsp))
  · intro osEnv fs e1 e2 k defV s w hgs hcond h1 hdne h2 hwne
    have hgs1 : getString (envStep osEnv fs (e1, k, defV)) k = .ok defV := by
      rw [envStep_fires e1 hgs hcond h1 hdne]
      exact getString_setString defV hgs
    show getString (envStep osEnv (envStep osEnv fs (e1, k, defV)) (e2, k, defV)) k = .ok w
    rw [envStep_fires e2 hgs1 (Or.inr rfl) h2 hwne]
    exact getString_setString w hgs1

/-- Claim C4 witness: the overlay closures appended for a two-name `env` tag;
an unset flag resolving to the environment value; an explicit flag value
winning over the environment; and a second declared name firing after the
first one already forced the flag. -/
theorem claim_C4_witness :
    (∃ m', processField "Opts" (GoField.mk "Tag_Name" false { env := "MY_TAG,ALT_TAG" } .str)
        ({} : CmdModel) = .ok m'
      ∧ m'.envSpecs = [("MY_TAG", "name", ""), ("ALT_TAG", "name", "")])
    ∧ getString (runEnvs [("MY_TAG", "tag-name", "")] (fun _ => "v2")
        [("tag-name", ⟨.str "", false, true⟩)]) "tag-name" = .ok "v2"
    ∧ getString (runEnvs [("MY_TAG", "tag-name", "")] (fun _ => "v2")
        [("tag-name", ⟨.str "v3", true, true⟩)]) "tag-name" = .ok "v3"
    ∧ getString (runEnvs [("E1", "tag-name", "d"), ("E2", "tag-name", "d")]
        (fun e => if e = "E1" then "d" else "v9")
        [("tag-name", ⟨.str "", false, true⟩)]) "tag-name" = .ok "v9" := by
  refine ⟨⟨_, rfl, ?_⟩, ?_, ?_, ?_⟩
  · exact claim_C4.1 "Opts" "Tag_Name" { env := "MY_TAG,ALT_TAG" } {} _ rfl
  · exact claim_C4.2.1 (fun _ => "v2") _ "MY_TAG" "tag-name" "" "" "v2" rfl (Or.inl rfl) rfl
      (by decide)
  · exact claim_C4.2.2.1 (fun _ => "v2") _ "tag-name" "" [("MY_TAG", "tag-name", "")] "v3"
      (by intro sp hsp; simp at hsp; simp [hsp]) rfl (by decide) (by decide)
  · exact claim_C4.2.2.2 (fun e => if e = "E1" then "d" else "v9") _ "E1" "E2" "tag-name" "d"
      "" "v9" rfl (Or.inl rfl) rfl (by decide) rfl (by decide)

/-- Claim C9: the hook chain runs the environment overlay strictly first (the
chain on an arbitrary state equals the chain with no overlay on the overlaid
flag set); when every step succeeds the write-back steps thread the record in
the fixed order unsplit-sequence, split-sequence, mapping, optional-integer,
optional-boolean, optional-string and the wrapped callable runs last, on the
fully written record; and when any one of the six write-back steps fails with
a retrieval error (each case listed), the chain returns exactly that error
for every choice of the later step lists and of the wrapped callable — none
of the later steps and not the body run. -/
theorem claim_C9 :
    (∀ (next : Record → Record × Option String) (a s m oi ob os : List String)
        (envs : List EnvSpec) (osEnv : String → String) (fs : FlagSet) (rec : Record),
      bindRun next a s m oi ob os envs osEnv fs rec =
        bindRun next a s m oi ob os [] osEnv (runEnvs envs osEnv fs) rec)
    ∧ (∀ (next : Record → Record × Option String) (a s m oi ob os : List String)
        (envs : List EnvSpec) (osEnv : String → String) (fs : FlagSet)
        (rec r1 r2 r3 r4 r5 r6 : Record),
      assignArrays (runEnvs envs osEnv fs) a rec = (r1, none) →
      assignSlices (runEnvs envs osEnv fs) s r1 = (r2, none) →
      assignMaps (runEnvs envs osEnv fs) m r2 = (r3, none) →
      assignOptInt (runEnvs envs osEnv fs) oi r3 = (r4, none) →
      assignOptBool (runEnvs envs osEnv fs) ob r4 = (r5, none) →
      assignOptString (runEnvs envs osEnv fs) os r5 = (r6, none) →
      bindRun next a s m oi ob os envs osEnv fs rec =
        (runEnvs envs osEnv fs, (next r6).1, (next r6).2))
    ∧ (∀ (next' : Record → Record × Option String) (a s' m' oi' ob' os' : List String)
        (envs : List EnvSpec) (osEnv : String → String) (fs : FlagSet)
        (rec r : Record) (e : String),
      assignArrays (runEnvs envs osEnv fs) a rec = (r, some e) →
      bindRun next' a s' m' oi' ob' os' envs osEnv fs rec =
        (runEnvs envs osEnv fs, r, some e))
    ∧ (∀ (next' : Record → Record × Option String) (a s m' oi' ob' os' : List String)
        (envs : List EnvSpec) (osEnv : String → String) (fs : FlagSet)
        (rec r1 r : Record) (e : String),
      assignArrays (runEnvs envs osEnv fs) a rec = (r1, none) →
      assignSlices (runEnvs envs osEnv fs) s r1 = (r, some e) →
      bindRun next' a s m' oi' ob' os' envs osEnv fs rec =
        (runEnvs envs osEnv fs, r, some e))
    ∧ (∀ (next' : Record → Record × Option String) (a s m oi' ob' os' : List String)
        (envs : List EnvSpec) (osEnv : String → String) (fs : FlagSet)
        (rec r1 r2 r : Record) (e : String),
      assignArrays (runEnvs envs osEnv fs) a rec = (r1, none) →
      assignSlices (runEnvs envs osEnv fs) s r1 = (r2, none) →
      assignMaps (runEnvs envs osEnv fs) m r2 = (r, some e) →
      bindRun next' a s m oi' ob' os' envs osEnv fs rec =
        (runEnvs envs osEnv fs, r, some e))
    ∧ (∀ (next' : Record → Record × Option String) (a s m oi ob' os' : List String)
        (envs : List EnvSpec) (osEnv : String → String) (fs : FlagSet)
        (rec r1 r2 r3 r : Record) (e : String),
      assignArrays (runEnvs envs osEnv fs) a rec = (r1, none) →
      assignSlices (runEnvs envs osEnv fs) s r1 = (r2, none) →
      assignMaps (runEnvs envs osEnv fs) m r2 = (r3, none) →
      assignOptInt (runEnvs envs osEnv fs) oi r3 = (r, some e) →
      bindRun next' a s m oi ob' os' envs osEnv fs rec =
        (runEnvs envs osEnv fs, r, some e))
    ∧ (∀ (next' : Record → Record × Option String) (a s m oi ob os' : List String)
        (envs : List EnvSpec) (osEnv : String → String) (fs : FlagSet)
        (rec r1 r2 r3 r4 r : Record) (e : String),
      assignArrays (runEnvs envs osEnv fs) a rec = (r1, none) →
      assignSlices (runEnvs envs osEnv fs) s r1 = (r2, none) →
      assignMaps (runEnvs envs osEnv fs) m r2 = (r3, none) →
      assignOptInt (runEnvs envs osEnv fs) oi r3 = (r4, none) →
      assignOptBool (runEnvs envs osEnv fs) ob r4 = (r, some e) →
      bindRun next' a s m oi ob os' envs osEnv fs rec =
        (runEnvs envs osEnv fs, r, some e))
    ∧ (∀ (next' : Record → Record × Option String) (a s m oi ob os : List String)
        (envs : List EnvSpec) (osEnv : String → String) (fs : FlagSet)
        (rec r1 r2 r3 r4 r5 r : Record) (e : String),
      assignArrays (runEnvs envs osEnv fs) a rec = (r1, none) →
      assignSlices (runEnvs envs osEnv fs) s r1 = (r2, none) →
      assignMaps (runEnvs envs osEnv fs) m r2 = (r3, none) →
      assignOptInt (runEnvs envs osEnv fs) oi r3 = (r4, none) →
      assignOptBool (runEnvs envs osEnv fs) ob r4 = (r5, none) →
      assignOptString (runEnvs envs osEnv fs) os r5 = (r, some e) →
      bindRun next' a s m oi ob os envs osEnv fs rec =
        (runEnvs envs osEnv fs, r, some e)) := by
  refine ⟨?_, ?_, ?_, ?_, ?_, ?_, ?_, ?_⟩
  · intro next a s m oi ob os envs osEnv fs rec
    rfl
  · intro next a s m oi ob os envs osEnv fs rec r1 r2 r3 r4 r5 r6 hA hS hM hOI hOB hOS
    simp [bindRun, hA, hS, hM, hOI, hOB, hOS]
  · intro next' a s' m' oi' ob' os' envs osEnv fs rec r e hA
    simp [bindRun, hA]
  · intro next' a s m' oi' ob' os' envs osEnv fs rec r1 r e hA hS
    simp [bindRun, hA, hS]
  · intro next' a s m oi' ob' os' envs osEnv fs rec r1 r2 r e hA hS hM
    simp [bindRun, hA, hS, hM]
  · intro next' a s m oi ob' os' envs osEnv fs rec r1 r2 r3 r e hA hS hM hOI
    simp [bindRun, hA, hS, hM, hOI]
  · intro next' a s m oi ob os' envs osEnv fs rec r1 r2 r3 r4 r e hA hS hM hOI hOB
    simp [bindRun, hA, hS, hM, hOI, hOB]
  · intro next' a s m oi ob os envs osEnv fs rec r1 r2 r3 r4 r5 r e hA hS hM hOI hOB hOS
    simp [bindRun, hA, hS, hM, hOI, hOB, hOS]

/-- Claim C9 witness: a fully successful chain running the body last on the
written record, and one aborted chain per write-back step — each failing with
a kind-mismatch retrieval error, each unaffected by junk later step lists and
by a body that would report a different error. -/
theorem claim_C9_witness :
    bindRun (fun r => (r, none)) ["ka"] [] [] [] [] [] [] (fun _ => "")
        [("ka", ⟨.strArray (some ["x"]), true, true⟩)] [] =
      ([("ka", ⟨.strArray (some ["x"]), true, true⟩)], [("ka", .strList ["x"])], none)
    ∧ bindRun (fun r => (r, some "BODY")) ["ka"] ["z"] ["z"] ["z"] ["z"] ["z"] [] (fun _ => "")
        [("ka", ⟨.strSlice (some ["x"]), true, true⟩)] [] =
      ([("ka", ⟨.strSlice (some ["x"]), true, true⟩)], [],
        some "trying to get stringArray value of flag of type stringSlice")
    ∧ bindRun (fun r => (r, some "BODY")) [] ["ks"] ["z"] ["z"] ["z"] ["z"] [] (fun _ => "")
        [("ks", ⟨.strArray (some ["x"]), true, true⟩)] [] =
      ([("ks", ⟨.strArray (some ["x"]), true, true⟩)], [],
        some "trying to get stringSlice value of flag of type stringArray")
    ∧ bindRun (fun r => (r, some "BODY")) [] [] ["km"] ["z"] ["z"] ["z"] [] (fun _ => "")
        [("km", ⟨.strArray (some ["x"]), true, true⟩)] [] =
      ([("km", ⟨.strArray (some ["x"]), true, true⟩)], [],
        some "trying to get stringSlice value of flag of type stringArray")
    ∧ bindRun (fun r => (r, some "BODY")) [] [] [] ["oi"] ["z"] ["z"] [] (fun _ => "")
        [("oi", ⟨.str "v", true, true⟩)] [] =
      ([("oi", ⟨.str "v", true, true⟩)], [], some "trying to get int value of flag of type string")
    ∧ bindRun (fun r => (r, some "BODY")) [] [] [] [] ["ob"] ["z"] [] (fun _ => "")
        [("ob", ⟨.int 1, true, true⟩)] [] =
      ([("ob", ⟨.int 1, true, true⟩)], [], some "trying to get bool value of flag of type int")
    ∧ bindRun (fun r => (r, some "BODY")) [] [] [] [] [] ["os"] [] (fun _ => "")
        [("os", ⟨.int 3, true, true⟩)] [] =
      ([("os", ⟨.int 3, true, true⟩)], [],
        some "trying to get string value of flag of type int") :=
  ⟨claim_C9.2.1 (fun r => (r, none)) ["ka"] [] [] [] [] [] [] (fun _ => "")
      [("ka", ⟨.strArray (some ["x"]), true, true⟩)] [] _ _ _ _ _ _
      rfl rfl rfl rfl rfl rfl,
   claim_C9.2.2.1 (fun r => (r, some "BODY")) ["ka"] ["z"] ["z"] ["z"] ["z"] ["z"] []
      (fun _ => "") [("ka", ⟨.strSlice (some ["x"]), true, true⟩)] [] _ _ rfl,
   claim_C9.2.2.2.1 (fun r => (r, some "BODY")) [] ["ks"] ["z"] ["z"] ["z"] ["z"] []
      (fun _ => "") [("ks", ⟨.strArray (some ["x"]), true, true⟩)] [] _ _ _ rfl rfl,
   claim_C9.2.2.2.2.1 (fun r => (r, some "BODY")) [] [] ["km"] ["z"] ["z"] ["z"] []
      (fun _ => "") [("km", ⟨.strArray (some ["x"]), true, true⟩)] [] _ _ _ _ rfl rfl rfl,
   claim_C9.2.2.2.2.2.1 (fun r => (r, some "BODY")) [] [] [] ["oi"] ["z"] ["z"] []
      (fun _ => "") [("oi", ⟨.str "v", true, true⟩)] [] _ _ _ _ _ rfl rfl rfl rfl,
   claim_C9.2.2.2.2.2.2.1 (fun r => (r, some "BODY")) [] [] [] [] ["ob"] ["z"] []
      (fun _ => "") [("ob", ⟨.int 1, true, true⟩)] [] _ _ _ _ _ _ rfl rfl rfl rfl rfl,
   claim_C9.2.2.2.2.2.2.2 (fun r => (r, some "BODY")) [] [] [] [] [] ["os"] []
      (fun _ => "") [("os", ⟨.int 3, true, true⟩)] [] _ _ _ _ _ _ _
      rfl rfl rfl rfl rfl rfl⟩

/-- Claim C10: when any one of the six write-back steps aborts the chain with
a retrieval error (each case listed), the record returned by the chain is
exactly the record as of the failure point — every assignment performed by
the earlier steps, and by the failing step's own earlier iterations, is kept,
not rolled back; moreover the failing step leaves keys outside its own list
untouched, so the earlier steps' writes survive it. -/
theorem claim_C10 :
    (∀ (next : Record → Record × Option String) (a s m oi ob os : List String)
        (envs : List EnvSpec) (osEnv : String → String) (fs : FlagSet)
        (rec r : Record) (e : String),
      assignArrays (runEnvs envs osEnv fs) a rec = (r, some e) →
      (bindRun next a s m oi ob os envs osEnv fs rec).2.1 = r
      ∧ (∀ k, k ∉ a → recGet r k = recGet rec k))
    ∧ (∀ (next : Record → Record × Option String) (a s m oi ob os : List String)
        (envs : List EnvSpec) (osEnv : String → String) (fs : FlagSet)
        (rec r1 r : Record) (e : String),
      assignArrays (runEnvs envs osEnv fs) a rec = (r1, none) →
      assignSlices (runEnvs envs osEnv fs) s r1 = (r, some e) →
      (bindRun next a s m oi ob os envs osEnv fs rec).2.1 = r
      ∧ (∀ k, k ∉ s → recGet r k = recGet r1 k))
    ∧ (∀ (next : Record → Record × Option String) (a s m oi ob os : List String)
        (envs : List EnvSpec) (osEnv : String → String) (fs : FlagSet)
        (rec r1 r2 r : Record) (e : String),
      assignArrays (runEnvs envs osEnv fs) a rec = (r1, none) →
      assignSlices (runEnvs envs osEnv fs) s r1 = (r2, none) →
      assignMaps (runEnvs envs osEnv fs) m r2 = (r, some e) →
      (bindRun next a s m oi ob os envs osEnv fs rec).2.1 = r
      ∧ (∀ k, k ∉ m → recGet r k = recGet r2 k))
    ∧ (∀ (next : Record → Record × Option String) (a s m oi ob os : List String)
        (envs : List EnvSpec) (osEnv : String → String) (fs : FlagSet)
        (rec r1 r2 r3 r : Record) (e : String),
      assignArrays (runEnvs envs osEnv fs) a rec = (r1, none) →
      assignSlices (runEnvs envs osEnv fs) s r1 = (r2, none) →
      assignMaps (runEnvs envs osEnv fs) m r2 = (r3, none) →
      assignOptInt (runEnvs envs osEnv fs) oi r3 = (r, some e) →
      (bindRun next a s m oi ob os envs osEnv fs rec).2.1 = r
      ∧ (∀ k, k ∉ oi → recGet r k = recGet r3 k))
    ∧ (∀ (next : Record → Record × Option String) (a s m oi ob os : List String)
        (envs : List EnvSpec) (osEnv : String → String) (fs : FlagSet)
        (rec r1 r2 r3 r4 r : Record) (e : String),
      assignArrays (runEnvs envs osEnv fs) a rec = (r1, none) →
      assignSlices (runEnvs envs osEnv fs) s r1 = (r2, none) →
      assignMaps (runEnvs envs osEnv fs) m r2 = (r3, none) →
      assignOptInt (runEnvs envs osEnv fs) oi r3 = (r4, none) →
      assignOptBool (runEnvs envs osEnv fs) ob r4 = (r, some e) →
      (bindRun next a s m oi ob os envs osEnv fs rec).2.1 = r
      ∧ (∀ k, k ∉ ob → recGet r k = recGet r4 k))
    ∧ (∀ (next : Record → Record × Option String) (a s m oi ob os : List String)
        (envs : List EnvSpec) (osEnv : String → String) (fs : FlagSet)
        (rec r1 r2 r3 r4 r5 r : Record) (e : String),
      assignArrays (runEnvs envs osEnv fs) a rec = (r1, none) →
      assignSlices (runEnvs envs osEnv fs) s r1 = (r2, none) →
      assignMaps (runEnvs envs osEnv fs) m r2 = (r3, none) →
      assignOptInt (runEnvs envs osEnv fs) oi r3 = (r4, none) →
      assignOptBool (runEnvs envs osEnv fs) ob r4 = (r5, none) →
      assignOptString (runEnvs envs osEnv fs) os r5 = (r, some e) →
      (bindRun next a s m oi ob os envs osEnv fs rec).2.1 = r
      ∧ (∀ k, k ∉ os → recGet r k = recGet r5 k)) := by
  refine ⟨?_, ?_, ?_, ?_, ?_, ?_⟩
  · intro next a s m oi ob os envs osEnv fs rec r e hA
    refine ⟨by simp [bindRun, hA], fun k hk => ?_⟩
    have h := assignArrays_fst_untouched (runEnvs envs osEnv fs) a rec hk
    rw [hA] at h
    exact h
  · intro next a s m oi ob os envs osEnv fs rec r1 r e hA hS
    refine ⟨by simp [bindRun, hA, hS], fun k hk => ?_⟩
    have h := assignSlices_fst_untouched (runEnvs envs osEnv fs) s r1 hk
    rw [hS] at h
    exact h
  · intro next a s m oi ob os envs osEnv fs rec r1 r2 r e hA hS hM
    refine ⟨by simp [bindRun, hA, hS, hM], fun k hk => ?_⟩
    have h := assignMaps_fst_untouched (runEnvs envs osEnv fs) m r2 hk
    rw [hM] at h
    exact h
  · intro next a s m oi ob os envs osEnv fs rec r1 r2 r3 r e hA hS hM hOI
    refine ⟨by simp [bindRun, hA, hS, hM, hOI], fun k hk => ?_⟩
    have h := assignOptInt_fst_untouched (runEnvs envs osEnv fs) oi r3 hk
    rw [hOI] at h
    exact h
  · intro next a s m oi ob os envs osEnv fs rec r1 r2 r3 r4 r e hA hS hM hOI hOB
    refine ⟨by simp [bindRun, hA, hS, hM, hOI, hOB], fun k hk => ?_⟩
    have h := assignOptBool_fst_untouched (runEnvs envs osEnv fs) ob r4 hk
    rw [hOB] at h
    exact h
  · intro next a s m oi ob os envs osEnv fs rec r1 r2 r3 r4 r5 r e hA hS hM hOI hOB hOS
    refine ⟨by simp [bindRun, hA, hS, hM, hOI, hOB, hOS], fun k hk => ?_⟩
    have h := assignOptString_fst_untouched (runEnvs envs osEnv fs) os r5 hk
    rw [hOS] at h
    exact h

/-- Claim C10 witness: one abort at the mapping step, after the
unsplit-sequence step and the first mapping key have already written their
fields — the returned record keeps both writes, and the sequence write is
untouched by the failing mapping step; and one abort at the optional-string
step, after the optional-integer and optional-boolean steps have written —
the returned record keeps both optional writes. -/
theorem claim_C10_witness :
    ((bindRun (fun r => (r, none)) ["ka"] [] ["km1", "km2"] [] [] [] [] (fun _ => "")
        [("ka", ⟨.strArray (some ["x"]), true, true⟩),
          ("km1", ⟨.strSlice (some ["p=q"]), true, true⟩),
          ("km2", ⟨.strArray (some ["y"]), true, true⟩)]
        []).2.1 =
      [("ka", FieldVal.strList ["x"]), ("km1", FieldVal.strMap [("p", "q")])]
    ∧ recGet [("ka", FieldVal.strList ["x"]), ("km1", FieldVal.strMap [("p", "q")])] "ka" =
        recGet [("ka", FieldVal.strList ["x"])] "ka")
    ∧ ((bindRun (fun r => (r, none)) [] [] [] ["oi"] ["ob"] ["os"] [] (fun _ => "")
        [("oi", ⟨.int 7, true, true⟩), ("ob", ⟨.bool true, true, true⟩),
          ("os", ⟨.int 3, true, true⟩)]
        []).2.1 =
      [("oi", FieldVal.optInt (some 7)), ("ob", FieldVal.optBool (some true))]
    ∧ recGet [("oi", FieldVal.optInt (some 7)), ("ob", FieldVal.optBool (some true))] "oi" =
        recGet [("oi", FieldVal.optInt (some 7)), ("ob", FieldVal.optBool (some true))] "oi") := by
  constructor
  · have h := claim_C10.2.2.1 (fun r => (r, none)) ["ka"] [] ["km1", "km2"] [] [] [] []
      (fun _ => "")
      [("ka", ⟨.strArray (some ["x"]), true, true⟩),
        ("km1", ⟨.strSlice (some ["p=q"]), true, true⟩),
        ("km2", ⟨.strArray (some ["y"]), true, true⟩)]
      [] [("ka", FieldVal.strList ["x"])] [("ka", FieldVal.strList ["x"])]
      [("ka", FieldVal.strList ["x"]), ("km1", FieldVal.strMap [("p", "q")])]
      "trying to get stringSlice value of flag of type stringArray" rfl rfl rfl
    exact ⟨h.1, h.2 "ka" (by decide)⟩
  · have h := claim_C10.2.2.2.2.2 (fun r => (r, none)) [] [] [] ["oi"] ["ob"] ["os"] []
      (fun _ => "")
      [("oi", ⟨.int 7, true, true⟩), ("ob", ⟨.bool true, true, true⟩),
        ("os", ⟨.int 3, true, true⟩)]
      [] [] [] [] [("oi", FieldVal.optInt (some 7))]
      [("oi", FieldVal.optInt (some 7)), ("ob", FieldVal.optBool (some true))]
      [("oi", FieldVal.optInt (some 7)), ("ob", FieldVal.optBool (some true))]
      "trying to get string value of flag of type int" rfl rfl rfl rfl rfl rfl
    exact ⟨h.1, h.2 "oi" (by decide)⟩

end KraftCli
